import Mathlib

/-!
Verification development for the `byomcp` form-assistant agent
(`src/agent/agent.py`).

The file embeds the per-connection request/response correlation engine
(`ConnectionManager`), the inbound listener classification (`listen`), the
dynamic tool proxy (`DynamicMCPTool._arun`) and capability discovery
(`discover_and_create_tools`) as executable Lean definitions, and proves
(or refutes) the specification claims about them.

Modelling conventions:
- JSON values are the inductive `Json` below; decoded frames are
  `Option Json` with `none` standing for a `json.JSONDecodeError`.
- Python `dict` semantics (key membership, `get` with default, truthiness,
  `str()` rendering) are modelled by the `py...` helpers. String `str()`
  rendering does not model escape sequences inside strings.
- `asyncio.Future` objects are modelled by `FState`; each future is
  identified by the request id it was created for (ids are never reused,
  see the invariant proofs below), so the `pending_mcp_requests` dict is
  represented by its key set `table` together with the ledger `futures`
  mapping every id ever issued to the state of its future (callers keep
  their future after the dict entry is popped, so the ledger also records
  what each suspended caller observes).
-/

namespace Byomcp

/-- JSON values as decoded by `json.loads`. Numbers are integers (the ids
used by the protocol are integers); object fields keep insertion order,
as Python dicts do. -/
inductive Json where
  | null : Json
  | bool (b : Bool) : Json
  | num (n : Int) : Json
  | str (s : String) : Json
  | arr (xs : List Json) : Json
  | obj (kvs : List (String × Json)) : Json

mutual

/-- Boolean equality on JSON values. -/
def Json.beq : Json → Json → Bool
  | .null, .null => true
  | .bool a, .bool b => a == b
  | .num a, .num b => a == b
  | .str a, .str b => a == b
  | .arr xs, .arr ys => Json.beqArr xs ys
  | .obj xs, .obj ys => Json.beqObj xs ys
  | _, _ => false

/-- Boolean equality on JSON arrays. -/
def Json.beqArr : List Json → List Json → Bool
  | [], [] => true
  | x :: xs, y :: ys => Json.beq x y && Json.beqArr xs ys
  | _, _ => false

/-- Boolean equality on JSON objects. -/
def Json.beqObj : List (String × Json) → List (String × Json) → Bool
  | [], [] => true
  | (k, v) :: xs, (l, w) :: ys => k == l && Json.beq v w && Json.beqObj xs ys
  | _, _ => false

end

mutual

theorem Json.eq_of_beq : ∀ {a b : Json}, Json.beq a b = true → a = b
  | .null, .null, _ => rfl
  | .bool _, .bool _, h => by
      simp only [Json.beq, beq_iff_eq] at h; exact h ▸ rfl
  | .num _, .num _, h => by
      simp only [Json.beq, beq_iff_eq] at h; exact h ▸ rfl
  | .str _, .str _, h => by
      simp only [Json.beq, beq_iff_eq] at h; exact h ▸ rfl
  | .arr xs, .arr ys, h => by
      rw [Json.eq_of_beqArr (a := xs) (b := ys) h]
  | .obj xs, .obj ys, h => by
      rw [Json.eq_of_beqObj (a := xs) (b := ys) h]

theorem Json.eq_of_beqArr : ∀ {a b : List Json}, Json.beqArr a b = true → a = b
  | [], [], _ => rfl
  | x :: xs, y :: ys, h => by
      simp only [Json.beqArr, Bool.and_eq_true] at h
      rw [Json.eq_of_beq h.1, Json.eq_of_beqArr (a := xs) (b := ys) h.2]

theorem Json.eq_of_beqObj :
    ∀ {a b : List (String × Json)}, Json.beqObj a b = true → a = b
  | [], [], _ => rfl
  | (k, v) :: xs, (l, w) :: ys, h => by
      simp only [Json.beqObj, Bool.and_eq_true, beq_iff_eq] at h
      rw [h.1.1, Json.eq_of_beq h.1.2, Json.eq_of_beqObj (a := xs) (b := ys) h.2]

end

mutual

theorem Json.beq_self : ∀ a : Json, Json.beq a a = true
  | .null => rfl
  | .bool _ => by simp [Json.beq]
  | .num _ => by simp [Json.beq]
  | .str _ => by simp [Json.beq]
  | .arr xs => by simp only [Json.beq]; exact Json.beqArr_self xs
  | .obj xs => by simp only [Json.beq]; exact Json.beqObj_self xs

theorem Json.beqArr_self : ∀ a : List Json, Json.beqArr a a = true
  | [] => rfl
  | x :: xs => by
      simp only [Json.beqArr, Bool.and_eq_true]
      exact ⟨Json.beq_self x, Json.beqArr_self xs⟩

theorem Json.beqObj_self : ∀ a : List (String × Json), Json.beqObj a a = true
  | [] => rfl
  | (k, v) :: xs => by
      simp only [Json.beqObj, Bool.and_eq_true]
      exact ⟨⟨by simp, Json.beq_self v⟩, Json.beqObj_self xs⟩

end

instance : BEq Json := ⟨Json.beq⟩

instance : LawfulBEq Json where
  eq_of_beq := Json.eq_of_beq
  rfl := Json.beq_self _

instance : DecidableEq Json := fun a b =>
  decidable_of_iff (Json.beq a b = true) ⟨Json.eq_of_beq, fun h => h ▸ Json.beq_self a⟩

/-- Python truthiness of a decoded JSON value (`if x:`). -/
def Json.truthy : Json → Bool
  | .null => false
  | .bool b => b
  | .num n => n != 0
  | .str s => s != ""
  | .arr xs => !xs.isEmpty
  | .obj kvs => !kvs.isEmpty

/-- Python `d.get(key)` on a decoded value: `some v` when `d` is a dict
with the key present, `none` when the key is absent. Calling `.get` on a
non-dict raises `AttributeError` in Python; callers of `pyGet` below only
reach it on dicts (non-dicts are routed to the error branches first). -/
def pyGet : Json → String → Option Json
  | .obj kvs, key => (kvs.find? (fun kv => kv.1 == key)).map Prod.snd
  | _, _ => none

/-- Bounded substring test used to model Python `needle in haystack` on
strings. -/
def strContains (hay needle : String) : Bool :=
  (List.range (hay.data.length + 1)).any
    (fun i => (hay.data.drop i).take needle.data.length == needle.data)

/-- Python `key in x` for a decoded JSON value: key membership on dicts,
element membership on lists, substring on strings; `none` models the
`TypeError` raised on numbers, booleans and `None`. -/
def pyContains (j : Json) (key : String) : Option Bool :=
  match j with
  | .obj kvs => some (kvs.any (fun kv => kv.1 == key))
  | .arr xs => some (xs.contains (Json.str key))
  | .str s => some (strContains s key)
  | _ => none

/-- Python `==` between a decoded JSON value and an `int` dict key (dict
lookup equality): `True == 1` and `False == 0` hold in Python. -/
def pyEqInt (j : Json) (k : Nat) : Bool :=
  match j with
  | .num n => n == (k : Int)
  | .bool b => (if b then (1 : Int) else 0) == (k : Int)
  | _ => false

mutual

/-- Python `repr()` of a decoded JSON value (element rendering inside
containers). String escape sequences are not modelled. -/
def pyRepr : Json → String
  | .null => "None"
  | .bool true => "True"
  | .bool false => "False"
  | .num n => toString n
  | .str s => "\x27" ++ s ++ "\x27"
  | .arr xs => "[" ++ pyReprArr xs ++ "]"
  | .obj kvs => "\x7b" ++ pyReprObj kvs ++ "\x7d"

/-- Comma-separated `repr` rendering of list elements. -/
def pyReprArr : List Json → String
  | [] => ""
  | [x] => pyRepr x
  | x :: y :: xs => pyRepr x ++ ", " ++ pyReprArr (y :: xs)

/-- Comma-separated `repr` rendering of dict entries. -/
def pyReprObj : List (String × Json) → String
  | [] => ""
  | [(k, v)] => "\x27" ++ k ++ "\x27: " ++ pyRepr v
  | (k, v) :: e :: kvs =>
      "\x27" ++ k ++ "\x27: " ++ pyRepr v ++ ", " ++ pyReprObj (e :: kvs)

end

/-- Python `str()` of a decoded JSON value: the string itself at top
level, `repr`-style rendering otherwise. -/
def pyStr : Json → String
  | .str s => s
  | j => pyRepr j

/-- State of one `asyncio.Future`: still pending, completed with
`set_result` (storing the full decoded reply frame), or cancelled
(`asyncio.wait_for` cancels the future it wraps on expiry).
`future.done()` is true in both the `done` and `cancelled` states. -/
inductive FState where
  | pending : FState
  | done (v : Json) : FState
  | cancelled : FState
deriving DecidableEq

/-- State of one `ConnectionManager` (`agent.py` lines 20-25).
`mcp_request_id` is the id counter; `table` is the key set of the
`pending_mcp_requests` dict; `futures` is the ledger of every future ever
created by `send_mcp_request`, keyed by the request id it was created for
(the dict maps each id in `table` to that id's future). Callers keep
their future after the dict entry is popped, so the ledger records what
each suspended caller observes. -/
structure CMState where
  mcp_request_id : Nat
  futures : List (Nat × FState)
  table : List Nat
deriving DecidableEq

/-- Fresh `ConnectionManager` (`__init__`): counter 0, no pending ids. -/
def initCM : CMState := ⟨0, [], []⟩

/-- Look up the state of the future created for id `k`. -/
def fstateGet (fs : List (Nat × FState)) (k : Nat) : Option FState :=
  (fs.find? (fun kv => kv.1 == k)).map Prod.snd

/-- Dict-style assignment on the ledger: replace the entry at `k` in
place if present, append otherwise. -/
def fstateSet (fs : List (Nat × FState)) (k : Nat) (v : FState) : List (Nat × FState) :=
  if fs.any (fun kv => kv.1 == k) then
    fs.map (fun kv => if kv.1 == k then (k, v) else kv)
  else
    fs ++ [(k, v)]

/-- Outbound request frame built by `send_mcp_request` (lines 79-85):
always `jsonrpc`, `method`, `id` in that order, with `params` appended
only when `params` is truthy (`if params:` — `None` and the empty dict
are both falsy). -/
def buildMcpRequest (method : String) (request_id : Nat) (params : Option Json) : Json :=
  let base := [("jsonrpc", Json.str "2.0"), ("method", Json.str method),
               ("id", Json.num (request_id : Int))]
  match params with
  | some p => if p.truthy then Json.obj (base ++ [("params", p)]) else Json.obj base
  | none => Json.obj base

/-- Issue half of `ConnectionManager.send_mcp_request` (lines 74-91):
increment the id counter, register a fresh pending future under the new
id, and send the request frame. Returns the new state, the allocated id
and the single frame sent. The await half (line 92) is modelled by the
`futures` ledger: the caller of id `k` is suspended until
`fstateGet futures k` leaves `FState.pending`. -/
def send_mcp_request (s : CMState) (method : String) (params : Option Json) :
    CMState × Nat × Json :=
  let request_id := s.mcp_request_id + 1
  let frame := buildMcpRequest method request_id params
  ({ mcp_request_id := request_id,
     futures := fstateSet s.futures request_id FState.pending,
     table := if request_id ∈ s.table then s.table else s.table ++ [request_id] },
   request_id, frame)

/-- The id field read by `handle_mcp_response`: `mcp_data.get("id")`,
with Python `None` (absent key) modelled as `Json.null`. -/
def jsonId (j : Json) : Json := (pyGet j "id").getD Json.null

/-- Observable outcome of one `handle_mcp_response` call, mirroring its
three paths: the future was completed with the reply; the entry was
popped but the future was already done, so `set_result` was skipped; or
no pending entry matched and the reply was logged and dropped. -/
inductive RespOutcome where
  | resolved (id : Nat) (reply : Json) : RespOutcome
  | alreadyDone (id : Nat) : RespOutcome
  | unknown : RespOutcome
deriving DecidableEq

/-- `ConnectionManager.handle_mcp_response` (lines 64-72): look up
`mcp_data.get("id")` among the pending ids; if found, pop the dict entry
and complete the future only if it is not yet done; otherwise log the
unknown-id warning and leave the state untouched. -/
def handle_mcp_response (s : CMState) (mcp_data : Json) : CMState × RespOutcome :=
  let request_id := jsonId mcp_data
  match s.table.find? (fun k => pyEqInt request_id k) with
  | some k =>
      let s1 : CMState := { s with table := s.table.erase k }
      match fstateGet s.futures k with
      | some FState.pending =>
          ({ s1 with futures := fstateSet s1.futures k (FState.done mcp_data) },
           RespOutcome.resolved k mcp_data)
      | _ => (s1, RespOutcome.alreadyDone k)
  | none => (s, RespOutcome.unknown)

/-- Expiry of the 15-second `asyncio.wait_for` in `send_mcp_request`
(line 92): the wrapped future is cancelled and `TimeoutError` is
re-raised to the caller (lines 94-96). The `except asyncio.TimeoutError`
branch does not pop the dict entry, so `table` is unchanged. -/
def timeoutFire (s : CMState) (k : Nat) : CMState :=
  match fstateGet s.futures k with
  | some FState.pending => { s with futures := fstateSet s.futures k FState.cancelled }
  | _ => s

/-- Session-level state: the connection manager plus the listener task
handle. -/
structure SessionState where
  cm : CMState
  listenerCancelRequested : Bool
deriving DecidableEq

/-- `ConnectionManager.cleanup` (lines 58-62): cancel the listener task
if it is not done, log. No pending future is failed, cancelled or
removed here — `cm` is untouched. -/
def cleanup (st : SessionState) : SessionState :=
  { st with listenerCancelRequested := true }

/-- Action taken by one iteration of `ConnectionManager.listen`
(lines 30-45) on one received frame:
`handleResponse` — awaited synchronously in the loop (line 35);
`spawnTask` — `asyncio.create_task(self.process_agent_message(...))`, an
independently scheduled concurrent task (line 40);
`ignore` — decodable non-reply frame with a falsy `message`, no task and
no reply (the `if message:` guard fails);
`malformedSkip` — `json.JSONDecodeError`, logged, loop continues
(line 42);
`errorSkip` — any other exception while processing the frame
(`TypeError` from `in` on a non-container, `AttributeError` from `.get`
on a non-dict), logged by the generic handler, loop continues
(line 44). -/
inductive ListenAction where
  | handleResponse (j : Json) : ListenAction
  | spawnTask (message : Json) (messageId : Json) : ListenAction
  | ignore : ListenAction
  | malformedSkip : ListenAction
  | errorSkip : ListenAction
deriving DecidableEq

/-- Classification performed by the body of `ConnectionManager.listen`
(lines 31-45) on one frame; `none` models a payload that fails
`json.loads`. The reply test is
`"jsonrpc" in message_data and "method" not in message_data`; everything
else falls through to `message_data.get("message", "")` guarded by
`if message:` (Python truthiness). -/
def classifyFrame : Option Json → ListenAction
  | none => ListenAction.malformedSkip
  | some j =>
    match pyContains j "jsonrpc", pyContains j "method" with
    | some hj, some hm =>
        if hj && !hm then
          match j with
          | Json.obj _ => ListenAction.handleResponse j
          | _ => ListenAction.errorSkip
        else
          match j with
          | Json.obj _ =>
              let message := (pyGet j "message").getD (Json.str "")
              if message.truthy then
                ListenAction.spawnTask message ((pyGet j "messageId").getD Json.null)
              else
                ListenAction.ignore
          | _ => ListenAction.errorSkip
    | _, _ => ListenAction.errorSkip

/-- The listener loop applied to a whole inbound sequence: one action per
frame, in arrival order; no frame terminates the loop. -/
def listenSteps (frames : List (Option Json)) : List ListenAction :=
  frames.map classifyFrame

/-- Result of the external `agent_executor.ainvoke` call as observed by
`process_agent_message`: the returned result dict, or the message of a
raised exception. -/
inductive AgentOutcome where
  | success (result : Json) : AgentOutcome
  | failure (errMsg : String) : AgentOutcome
deriving DecidableEq

/-- Attach `messageId` to an outbound reply dict when `message_id` is
truthy (`if message_id:`), mirroring lines 106-107, 115-116 and 121-122. -/
def withMessageId (resp : Json) (message_id : Json) : Json :=
  if message_id.truthy then
    match resp with
    | Json.obj kvs => Json.obj (kvs ++ [("messageId", message_id)])
    | r => r
  else resp

/-- `ConnectionManager.process_agent_message` (lines 102-123) as the list
of frames it sends: exactly one frame on every path — the
`Agent not ready` error when no agent executor is bound, otherwise a
`result` frame from the agent outcome (`result.get("output", str(result))`)
or an `error` frame carrying `str(e)` when the agent raised. -/
def process_agent_message (agentReady : Bool) (outcome : AgentOutcome)
    (message_id : Json) : List Json :=
  if !agentReady then
    [withMessageId (Json.obj [("error", Json.str "Agent not ready")]) message_id]
  else
    match outcome with
    | AgentOutcome.success result =>
        let output := (pyGet result "output").getD (Json.str (pyStr result))
        [withMessageId (Json.obj [("result", output)]) message_id]
    | AgentOutcome.failure e =>
        [withMessageId (Json.obj [("error", Json.str e)]) message_id]

/-- Request half of `DynamicMCPTool._arun` (lines 141-145): serialize the
keyword arguments, build `params` and issue one `tools/call` request
through the connection manager. Returns the new state, the allocated id
and the single frame sent. -/
def arunRequest (s : CMState) (name : String) (kwargs : Json) : CMState × Nat × Json :=
  send_mcp_request s "tools/call"
    (some (Json.obj [("name", Json.str name), ("arguments", kwargs)]))

/-- Response half of `DynamicMCPTool._arun` (lines 147-150): an
error-shaped reply becomes a descriptive string embedding the error; a
success reply becomes `str(response.get("result", {}))`. -/
def arunResult (name : String) (response : Json) : String :=
  if (pyContains response "error").getD false then
    "Error calling " ++ name ++ ": " ++ pyStr ((pyGet response "error").getD Json.null)
  else
    pyStr ((pyGet response "result").getD (Json.obj []))

/-- One constructed `DynamicMCPTool` (lines 181-187): bound name,
description, the raw descriptor, and the converted argument schema
(`none` when the descriptor had no `inputSchema` or its conversion
failed, degrading the tool to unchecked arguments). The opaque pydantic
model produced by `jsonschema_to_pydantic` is represented by the schema
value handed to the conversion function. -/
structure ToolModel where
  name : String
  description : String
  tool_info : Json
  args_schema : Option Json
deriving DecidableEq

/-- Schema conversion for one descriptor (lines 173-179): when
`"inputSchema" in tool_info`, apply the external `jsonschema_to_pydantic`
(modelled as `conv`, `none` standing for a raised exception, caught and
logged so that `args_schema` stays `None`); otherwise `none`. -/
def extractSchema (conv : Json → Option Json) (tool_info : Json) : Option Json :=
  if (pyContains tool_info "inputSchema").getD false then
    conv ((pyGet tool_info "inputSchema").getD Json.null)
  else
    none

/-- Construction of one `DynamicMCPTool` from one descriptor
(lines 171-187): `tool_info["name"]` and `tool_info["description"]` must
be present strings (a `KeyError` or pydantic validation error propagates
to the outer handler, modelled as `none`); a schema-conversion failure is
caught locally and leaves `args_schema` as `None`. -/
def extractTool (conv : Json → Option Json) (tool_info : Json) : Option ToolModel :=
  match pyGet tool_info "name", pyGet tool_info "description" with
  | some (Json.str nm), some (Json.str ds) =>
      some ⟨nm, ds, tool_info, extractSchema conv tool_info⟩
  | _, _ => none

/-- `discover_and_create_tools` (lines 159-194) applied to the decoded
reply of its single `tools/list` request: an error-shaped reply yields
`[]`; otherwise the descriptors are read from
`response.get("result", {}).get("tools", [])` and each is turned into a
tool; any exception inside the loop (or a non-dict result) reaches the
outer handler, which yields `[]`. -/
def discover_and_create_tools (conv : Json → Option Json) (response : Json) :
    List ToolModel :=
  if (pyContains response "error").getD false then []
  else
    match pyGet ((pyGet response "result").getD (Json.obj [])) "tools" with
    | some (Json.arr infos) => (infos.mapM (extractTool conv)).getD []
    | some _ => []
    | none => []

/-- Discovery reply frame carrying the given descriptor list under
`result.tools` — the shape `discover_and_create_tools` reads. -/
def mkToolsResponse (infos : List Json) : Json :=
  Json.obj [("jsonrpc", Json.str "2.0"), ("id", Json.num 1),
            ("result", Json.obj [("tools", Json.arr infos)])]

/-- Events acting on one connection manager: an outbound request being
issued, an inbound reply frame being handled, or a request timeout
firing. -/
inductive Event where
  | issue (method : String) (params : Option Json) : Event
  | frame (j : Json) : Event
  | timeout (k : Nat) : Event

/-- Effect of one event on the connection-manager state. -/
def step (s : CMState) : Event → CMState
  | Event.issue m p => (send_mcp_request s m p).1
  | Event.frame j => (handle_mcp_response s j).1
  | Event.timeout k => timeoutFire s k

/-- State reached from `s` after a sequence of events. -/
def run (s : CMState) (es : List Event) : CMState :=
  es.foldl step s

/-- The ids `1, 2, ..., n` in order: the ids allocated by the first `n`
calls to `send_mcp_request`. -/
def idsUpTo (n : Nat) : List Nat :=
  (List.range n).map (fun i => i + 1)

theorem mem_idsUpTo {k n : Nat} : k ∈ idsUpTo n ↔ 1 ≤ k ∧ k ≤ n := by
  simp only [idsUpTo, List.mem_map, List.mem_range]
  constructor
  · rintro ⟨i, hi, rfl⟩; omega
  · rintro ⟨h1, h2⟩; exact ⟨k - 1, by omega, by omega⟩

theorem idsUpTo_succ (n : Nat) : idsUpTo (n + 1) = idsUpTo n ++ [n + 1] := by
  simp [idsUpTo, List.range_succ]

theorem any_key_iff (fs : List (Nat × FState)) (k : Nat) :
    fs.any (fun kv => kv.1 == k) = true ↔ k ∈ fs.map Prod.fst := by
  simp only [List.any_eq_true, List.mem_map, beq_iff_eq]

theorem fstateGet_isSome_iff (fs : List (Nat × FState)) (k : Nat) :
    (fstateGet fs k).isSome ↔ k ∈ fs.map Prod.fst := by
  simp only [fstateGet, Option.isSome_map', List.find?_isSome, List.mem_map, beq_iff_eq]

theorem mem_of_fstateGet_eq_some {fs : List (Nat × FState)} {k : Nat} {v : FState}
    (h : fstateGet fs k = some v) : k ∈ fs.map Prod.fst := by
  rw [← fstateGet_isSome_iff, h]; rfl

theorem fstateGet_fstateSet_self (fs : List (Nat × FState)) (k : Nat) (v : FState) :
    fstateGet (fstateSet fs k v) k = some v := by
  unfold fstateSet fstateGet
  split
  case isTrue h =>
    rw [List.find?_map]
    have hp : ((fun kv : Nat × FState => kv.1 == k) ∘
        fun kv => if kv.1 == k then (k, v) else kv) = fun kv : Nat × FState => kv.1 == k := by
      funext kv
      by_cases hkv : kv.1 = k <;> simp [hkv]
    rw [hp]
    have hsome : (fs.find? (fun kv => kv.1 == k)).isSome := by
      rw [List.find?_isSome]
      rcases List.any_eq_true.mp h with ⟨kv, hm, hk⟩
      exact ⟨kv, hm, hk⟩
    rcases Option.isSome_iff_exists.mp hsome with ⟨kv0, hkv0⟩
    have h0 := List.find?_some hkv0
    rw [hkv0]
    simp only [beq_iff_eq] at h0
    simp [h0]
  case isFalse h =>
    rw [List.find?_append]
    have hnone : fs.find? (fun kv => kv.1 == k) = none := by
      rw [List.find?_eq_none]
      intro x hx hpx
      exact h (List.any_eq_true.mpr ⟨x, hx, hpx⟩)
    simp [hnone]

theorem fstateGet_fstateSet_ne (fs : List (Nat × FState)) {k k' : Nat} (v : FState)
    (h : k' ≠ k) : fstateGet (fstateSet fs k v) k' = fstateGet fs k' := by
  unfold fstateSet fstateGet
  split
  case isTrue _ =>
    rw [List.find?_map]
    have hp : ((fun kv : Nat × FState => kv.1 == k') ∘
        fun kv => if kv.1 == k then (k, v) else kv) = fun kv : Nat × FState => kv.1 == k' := by
      funext kv
      by_cases hkv : kv.1 = k <;> simp [hkv, Ne.symm h]
    rw [hp]
    cases hf : fs.find? (fun kv => kv.1 == k') with
    | none => simp
    | some kv0 =>
      have h0 := List.find?_some hf
      simp only [beq_iff_eq] at h0
      have hne : kv0.1 ≠ k := by rw [h0]; exact h
      simp [hne]
  case isFalse _ =>
    rw [List.find?_append]
    have : ([(k, v)].find? (fun kv => kv.1 == k')) = none := by
      simp [Ne.symm h]
    simp [this]

theorem keys_fstateSet_mem (fs : List (Nat × FState)) (k : Nat) (v : FState)
    (h : fs.any (fun kv => kv.1 == k) = true) :
    (fstateSet fs k v).map Prod.fst = fs.map Prod.fst := by
  unfold fstateSet
  rw [if_pos h, List.map_map]
  apply List.map_congr_left
  intro kv _
  by_cases hkv : kv.1 = k <;> simp [hkv]

theorem keys_fstateSet_not_mem (fs : List (Nat × FState)) (k : Nat) (v : FState)
    (h : ¬fs.any (fun kv => kv.1 == k) = true) :
    (fstateSet fs k v).map Prod.fst = fs.map Prod.fst ++ [k] := by
  unfold fstateSet
  rw [if_neg h, List.map_append]
  rfl

theorem pyEqInt_unique {j : Json} {a b : Nat} (ha : pyEqInt j a = true)
    (hb : pyEqInt j b = true) : a = b := by
  cases j with
  | num n =>
      simp only [pyEqInt, beq_iff_eq] at ha hb
      rw [ha] at hb
      exact_mod_cast hb
  | bool b0 =>
      simp only [pyEqInt, beq_iff_eq] at ha hb
      rw [ha] at hb
      exact_mod_cast hb
  | null => exact absurd ha (by simp [pyEqInt])
  | str s => exact absurd ha (by simp [pyEqInt])
  | arr xs => exact absurd ha (by simp [pyEqInt])
  | obj kvs => exact absurd ha (by simp [pyEqInt])

/-- Correlation invariant of one connection manager: the ledger holds
exactly the ids `1..mcp_request_id` in allocation order (so ids are
distinct, strictly increasing and never reused), the pending table holds
a subset of those ids with no duplicates (at most one pending entry per
id), and every completed future holds a reply whose `id` field matches
the id it was issued for. -/
structure Inv (s : CMState) : Prop where
  keys_eq : s.futures.map Prod.fst = idsUpTo s.mcp_request_id
  table_sub : ∀ k ∈ s.table, k ∈ s.futures.map Prod.fst
  table_nodup : s.table.Nodup
  resolved_match : ∀ k j, fstateGet s.futures k = some (FState.done j) →
      pyEqInt (jsonId j) k = true

theorem inv_initCM : Inv initCM := by
  refine ⟨rfl, ?_, List.nodup_nil, ?_⟩
  · intro k hk; cases hk
  · intro k j h; cases h

theorem send_mcp_request_fst (s : CMState) (m : String) (p : Option Json) :
    (send_mcp_request s m p).1 =
      { mcp_request_id := s.mcp_request_id + 1,
        futures := fstateSet s.futures (s.mcp_request_id + 1) FState.pending,
        table := if s.mcp_request_id + 1 ∈ s.table then s.table
                 else s.table ++ [s.mcp_request_id + 1] } := rfl

theorem inv_send (s : CMState) (m : String) (p : Option Json) (hs : Inv s) :
    Inv (send_mcp_request s m p).1 := by
  have hfresh_f : s.mcp_request_id + 1 ∉ s.futures.map Prod.fst := by
    rw [hs.keys_eq, mem_idsUpTo]; omega
  have hany : ¬(s.futures.any (fun kv => kv.1 == s.mcp_request_id + 1)) = true := by
    rw [any_key_iff]; exact hfresh_f
  have hfresh_t : s.mcp_request_id + 1 ∉ s.table := fun h => hfresh_f (hs.table_sub _ h)
  rw [send_mcp_request_fst, if_neg hfresh_t]
  constructor
  · dsimp only
    rw [keys_fstateSet_not_mem _ _ _ hany, hs.keys_eq, idsUpTo_succ]
  · intro k hk
    dsimp only at hk ⊢
    rw [keys_fstateSet_not_mem _ _ _ hany]
    rcases List.mem_append.mp hk with h | h
    · exact List.mem_append.mpr (Or.inl (hs.table_sub _ h))
    · exact List.mem_append.mpr (Or.inr h)
  · dsimp only
    rw [List.nodup_append]
    refine ⟨hs.table_nodup, List.nodup_singleton _, ?_⟩
    intro a ha hb
    rw [List.mem_singleton] at hb
    subst hb
    exact hfresh_t ha
  · intro k j h
    dsimp only at h
    by_cases hk : k = s.mcp_request_id + 1
    · subst hk
      rw [fstateGet_fstateSet_self] at h
      cases h
    · rw [fstateGet_fstateSet_ne _ _ hk] at h
      exact hs.resolved_match k j h

theorem find?_table_some {t : List Nat} {j : Json} {k : Nat}
    (hf : t.find? (fun k0 => pyEqInt (jsonId j) k0) = some k) :
    k ∈ t ∧ pyEqInt (jsonId j) k = true :=
  ⟨List.mem_of_find?_eq_some hf, List.find?_some hf⟩

theorem inv_handle (s : CMState) (j : Json) (hs : Inv s) :
    Inv (handle_mcp_response s j).1 := by
  simp only [handle_mcp_response]
  split
  case h_1 k hf =>
    obtain ⟨hkmem, hkeq⟩ := find?_table_some hf
    have hkeys : k ∈ s.futures.map Prod.fst := hs.table_sub _ hkmem
    have hany : s.futures.any (fun kv => kv.1 == k) = true := (any_key_iff _ _).mpr hkeys
    split
    case h_1 hg =>
      constructor
      · dsimp only
        rw [keys_fstateSet_mem _ _ _ hany]
        exact hs.keys_eq
      · intro x hx
        dsimp only at hx ⊢
        rw [keys_fstateSet_mem _ _ _ hany]
        exact hs.table_sub _ (List.mem_of_mem_erase hx)
      · exact hs.table_nodup.erase _
      · intro x jx hx
        dsimp only at hx
        by_cases hxk : x = k
        · subst hxk
          rw [fstateGet_fstateSet_self] at hx
          injection hx with h1
          injection h1 with h2
          subst h2
          exact hkeq
        · rw [fstateGet_fstateSet_ne _ _ hxk] at hx
          exact hs.resolved_match _ _ hx
    case h_2 hg =>
      constructor
      · exact hs.keys_eq
      · intro x hx
        exact hs.table_sub _ (List.mem_of_mem_erase hx)
      · exact hs.table_nodup.erase _
      · exact hs.resolved_match
  case h_2 hf => exact hs

theorem inv_timeout (s : CMState) (k : Nat) (hs : Inv s) : Inv (timeoutFire s k) := by
  simp only [timeoutFire]
  split
  case h_1 hg =>
    have hkeys : k ∈ s.futures.map Prod.fst := mem_of_fstateGet_eq_some hg
    have hany : s.futures.any (fun kv => kv.1 == k) = true := (any_key_iff _ _).mpr hkeys
    constructor
    · dsimp only
      rw [keys_fstateSet_mem _ _ _ hany]
      exact hs.keys_eq
    · intro x hx
      dsimp only at hx ⊢
      rw [keys_fstateSet_mem _ _ _ hany]
      exact hs.table_sub _ hx
    · exact hs.table_nodup
    · intro x jx hx
      dsimp only at hx
      by_cases hxk : x = k
      · subst hxk
        rw [fstateGet_fstateSet_self] at hx
        cases hx
      · rw [fstateGet_fstateSet_ne _ _ hxk] at hx
        exact hs.resolved_match _ _ hx
  case h_2 => exact hs

theorem inv_step (s : CMState) (e : Event) (hs : Inv s) : Inv (step s e) := by
  cases e with
  | issue m p => exact inv_send s m p hs
  | frame j => exact inv_handle s j hs
  | timeout k => exact inv_timeout s k hs

theorem inv_run (s : CMState) (es : List Event) (hs : Inv s) : Inv (run s es) := by
  induction es generalizing s with
  | nil => exact hs
  | cons e es ih => exact ih _ (inv_step s e hs)

theorem handle_futures_nonmatching (s : CMState) (j : Json) (k : Nat)
    (h : pyEqInt (jsonId j) k = false) :
    fstateGet (handle_mcp_response s j).1.futures k = fstateGet s.futures k := by
  simp only [handle_mcp_response]
  split
  case h_1 k0 hf =>
    have hk0 : pyEqInt (jsonId j) k0 = true := List.find?_some hf
    have hne : k ≠ k0 := by
      intro he
      rw [he, hk0] at h
      cases h
    split
    case h_1 hg => exact fstateGet_fstateSet_ne _ _ hne
    case h_2 hg => rfl
  case h_2 hf => rfl

theorem timeoutFire_table (s : CMState) (k : Nat) : (timeoutFire s k).table = s.table := by
  simp only [timeoutFire]
  split <;> rfl

theorem handle_table_of_find_some {s : CMState} {j : Json} {k : Nat}
    (hf : s.table.find? (fun k0 => pyEqInt (jsonId j) k0) = some k) :
    (handle_mcp_response s j).1.table = s.table.erase k := by
  simp only [handle_mcp_response, hf]
  split <;> rfl

theorem mapM_extract_length {conv : Json → Option Json} :
    ∀ {infos : List Json} {ts : List ToolModel},
      infos.mapM (extractTool conv) = some ts → ts.length = infos.length := by
  intro infos
  induction infos with
  | nil =>
      intro ts h
      simp only [List.mapM_nil] at h
      cases h
      rfl
  | cons a infos ih =>
      intro ts h
      rw [List.mapM_cons] at h
      cases ha : extractTool conv a with
      | none => rw [ha] at h; cases h
      | some t =>
          rw [ha] at h
          cases hrest : infos.mapM (extractTool conv) with
          | none => rw [hrest] at h; cases h
          | some ts0 =>
              rw [hrest] at h
              simp at h
              subst h
              simp [ih hrest]

/-- C1: over every sequence of interleaved `send_mcp_request` issues,
inbound reply frames and timeouts on one connection, the allocated
request ids are exactly the distinct, strictly increasing sequence
`1..mcp_request_id` (an id is never reused), the pending table holds at
most one entry per id, a caller whose future was completed received
exactly a reply carrying its own id, and a reply whose id does not match
a caller's id never touches that caller's future, regardless of the
arrival order of other replies. -/
theorem C1_request_correlation (es : List Event) (k k2 : Nat) (j j2 : Json)
    (hk : fstateGet (run initCM es).futures k = some (FState.done j))
    (hne : pyEqInt (jsonId j2) k2 = false) :
    (run initCM es).futures.map Prod.fst = idsUpTo (run initCM es).mcp_request_id ∧
    (run initCM es).table.Nodup ∧
    pyEqInt (jsonId j) k = true ∧
    fstateGet (handle_mcp_response (run initCM es) j2).1.futures k2
      = fstateGet (run initCM es).futures k2 := by
  have hinv := inv_run initCM es inv_initCM
  exact ⟨hinv.keys_eq, hinv.table_nodup, hinv.resolved_match k j hk,
         handle_futures_nonmatching _ j2 k2 hne⟩

/-- Concrete trace for the C1 witness: one issued request, then its
reply. -/
def traceC1 : List Event :=
  [Event.issue "tools/list" none,
   Event.frame (Json.obj [("jsonrpc", Json.str "2.0"), ("id", Json.num 1),
     ("result", Json.obj [])])]

/-- Reply frame delivered in `traceC1`. -/
def replyC1 : Json :=
  Json.obj [("jsonrpc", Json.str "2.0"), ("id", Json.num 1), ("result", Json.obj [])]

/-- Late reply frame with a non-matching id, for the C1 witness. -/
def lateC1 : Json :=
  Json.obj [("jsonrpc", Json.str "2.0"), ("id", Json.num 2), ("result", Json.obj [])]

/-- Witness for C1: the two-event trace issues id 1 and resolves it with
the reply carrying id 1; a frame carrying id 2 does not touch it. -/
theorem C1_request_correlation_witness :
    (run initCM traceC1).futures.map Prod.fst = idsUpTo (run initCM traceC1).mcp_request_id ∧
    (run initCM traceC1).table.Nodup ∧
    pyEqInt (jsonId replyC1) 1 = true ∧
    fstateGet (handle_mcp_response (run initCM traceC1) lateC1).1.futures 1
      = fstateGet (run initCM traceC1).futures 1 :=
  C1_request_correlation traceC1 1 1 replyC1 lateC1 (by decide) (by decide)

/-- C3: evaluation of the code at the failing input — session teardown
with one request pending. `ConnectionManager.cleanup` only cancels the
listener task: the pending future for id 1 is left in state `pending`,
so the suspended caller is not failed with a `ConnectionClosed` error
and stays suspended until its own 15-second timeout fires, contrary to
the required teardown policy. -/
theorem C3_cleanup_leaves_pending :
    (cleanup ⟨(send_mcp_request initCM "tools/list" none).1, false⟩).cm
      = (send_mcp_request initCM "tools/list" none).1 ∧
    fstateGet (cleanup ⟨(send_mcp_request initCM "tools/list" none).1, false⟩).cm.futures 1
      = some FState.pending ∧
    (cleanup ⟨(send_mcp_request initCM "tools/list" none).1, false⟩).cm.table = [1] ∧
    (cleanup ⟨(send_mcp_request initCM "tools/list" none).1, false⟩).listenerCancelRequested
      = true :=
  ⟨rfl, by decide, by decide, rfl⟩

/-- State with one outstanding request, used in the C4 counterexample. -/
def c4State : CMState := (send_mcp_request initCM "tools/call" none).1

/-- C4 counterexample: after the 15-second timeout fires for request
id 1, the id is still present in the pending table — the entry is not
removed on timeout (the `except asyncio.TimeoutError` branch re-raises
without popping), contradicting the claim that the entry is removed. -/
theorem C4_counterexample :
    (timeoutFire c4State 1).table = [1] ∧
    1 ∈ (timeoutFire c4State 1).table ∧
    fstateGet (timeoutFire c4State 1).futures 1 = some FState.cancelled := by
  refine ⟨by decide, by decide, by decide⟩

/-- C4 (amended): if no reply arrives within the timeout,
`send_mcp_request` fails with a Timeout error and the awaited future is
cancelled, but the PendingRequest entry remains in the pending table; a
reply for that id arriving after the timeout pops the entry and, because
the future is already done, its result is never set — the late reply is
dropped and never misapplied to any caller. -/
theorem C4_timeout_then_late_reply (s : CMState) (k : Nat) (j : Json)
    (hn : s.table.Nodup)
    (hp : fstateGet s.futures k = some FState.pending)
    (hfind : s.table.find? (fun k0 => pyEqInt (jsonId j) k0) = some k) :
    (timeoutFire s k).table = s.table ∧
    fstateGet (timeoutFire s k).futures k = some FState.cancelled ∧
    (handle_mcp_response (timeoutFire s k) j).2 = RespOutcome.alreadyDone k ∧
    (handle_mcp_response (timeoutFire s k) j).1.futures = (timeoutFire s k).futures ∧
    k ∉ (handle_mcp_response (timeoutFire s k) j).1.table := by
  have ht : (timeoutFire s k).table = s.table := timeoutFire_table s k
  have hc : fstateGet (timeoutFire s k).futures k = some FState.cancelled := by
    simp only [timeoutFire, hp]
    exact fstateGet_fstateSet_self _ _ _
  have hfind2 : (timeoutFire s k).table.find? (fun k0 => pyEqInt (jsonId j) k0) = some k := by
    rw [ht]; exact hfind
  refine ⟨ht, hc, ?_, ?_, ?_⟩
  · simp only [handle_mcp_response, hfind2, hc]
  · simp only [handle_mcp_response, hfind2, hc]
  · simp only [handle_mcp_response, hfind2, hc]
    rw [ht]
    exact hn.not_mem_erase

/-- Witness for C4 (amended): issue id 1, let its timeout fire, then
deliver the late reply for id 1. -/
theorem C4_timeout_then_late_reply_witness :
    (timeoutFire c4State 1).table = c4State.table ∧
    fstateGet (timeoutFire c4State 1).futures 1 = some FState.cancelled ∧
    (handle_mcp_response (timeoutFire c4State 1) replyC1).2 = RespOutcome.alreadyDone 1 ∧
    (handle_mcp_response (timeoutFire c4State 1) replyC1).1.futures
      = (timeoutFire c4State 1).futures ∧
    1 ∉ (handle_mcp_response (timeoutFire c4State 1) replyC1).1.table :=
  C4_timeout_then_late_reply c4State 1 replyC1 (by decide) (by decide) (by decide)

theorem handle_of_find_none {s : CMState} {j : Json}
    (hf : s.table.find? (fun k0 => pyEqInt (jsonId j) k0) = none) :
    handle_mcp_response s j = (s, RespOutcome.unknown) := by
  simp only [handle_mcp_response, hf]

/-- C5: a reply whose id matches no entry in the pending table is logged
and dropped: `handle_mcp_response` returns normally (it is a total
function, never an exception) with the state unchanged and the
unknown-id outcome, so no caller ever observes a fault from it; and a
duplicate reply for an id that was just resolved finds the entry already
popped and is dropped the same way. -/
theorem C5_unmatched_reply_dropped (s s2 : CMState) (j j2 : Json) (k2 : Nat)
    (h : ∀ k ∈ s.table, pyEqInt (jsonId j) k = false)
    (hn : s2.table.Nodup)
    (hfind : s2.table.find? (fun k0 => pyEqInt (jsonId j2) k0) = some k2) :
    handle_mcp_response s j = (s, RespOutcome.unknown) ∧
    handle_mcp_response (handle_mcp_response s2 j2).1 j2
      = ((handle_mcp_response s2 j2).1, RespOutcome.unknown) := by
  have hk2 : pyEqInt (jsonId j2) k2 = true := List.find?_some hfind
  constructor
  · have hnone : s.table.find? (fun k0 => pyEqInt (jsonId j) k0) = none := by
      rw [List.find?_eq_none]
      intro x hx hpx
      rw [h x hx] at hpx
      cases hpx
    exact handle_of_find_none hnone
  · have htab : (handle_mcp_response s2 j2).1.table = s2.table.erase k2 :=
      handle_table_of_find_some hfind
    have hnone2 : (handle_mcp_response s2 j2).1.table.find?
        (fun k0 => pyEqInt (jsonId j2) k0) = none := by
      rw [htab, List.find?_eq_none]
      intro x hx hpx
      have hxk : x = k2 := pyEqInt_unique hpx hk2
      subst hxk
      exact hn.not_mem_erase hx
    exact handle_of_find_none hnone2

/-- State with request id 1 pending, for the C5 witness. -/
def c5State : CMState := (send_mcp_request initCM "tools/call" none).1

/-- Witness for C5: in a state whose only pending id is 1, a reply
carrying id 5 is dropped with the state unchanged, and a second delivery
of the reply for id 1 (already resolved by the first delivery) is also
dropped. -/
theorem C5_unmatched_reply_dropped_witness :
    handle_mcp_response c5State lateC1 = (c5State, RespOutcome.unknown) ∧
    handle_mcp_response (handle_mcp_response c5State replyC1).1 replyC1
      = ((handle_mcp_response c5State replyC1).1, RespOutcome.unknown) :=
  C5_unmatched_reply_dropped c5State c5State lateC1 replyC1 1
    (by decide) (by decide) (by decide)

/-- The listener's reply test on a decoded frame:
`"jsonrpc" in message_data and "method" not in message_data`. -/
def isReplyShaped (j : Json) : Bool :=
  (pyContains j "jsonrpc").getD false && !((pyContains j "method").getD false)

/-- Python key-presence test `key in j` for dicts, defaulting to false. -/
def hasKeyB (j : Json) (key : String) : Bool :=
  (pyContains j key).getD false

/-- The `message` value the listener reads from a non-reply dict frame:
`message_data.get("message", "")`. -/
def messageOf (kvs : List (String × Json)) : Json :=
  (pyGet (Json.obj kvs) "message").getD (Json.str "")

/-- The `messageId` value the listener reads from a non-reply dict frame:
`message_data.get("messageId")`, absent modelled as `Json.null`. -/
def messageIdOf (kvs : List (String × Json)) : Json :=
  (pyGet (Json.obj kvs) "messageId").getD Json.null

theorem classifyFrame_obj (kvs : List (String × Json)) :
    classifyFrame (some (Json.obj kvs)) =
      if isReplyShaped (Json.obj kvs) then ListenAction.handleResponse (Json.obj kvs)
      else if (messageOf kvs).truthy then
        ListenAction.spawnTask (messageOf kvs) (messageIdOf kvs)
      else ListenAction.ignore := by
  simp only [classifyFrame, pyContains, isReplyShaped, messageOf, messageIdOf,
    Option.getD_some]

/-- C2 counterexample: the decodable non-reply frame with no `message`
field is not handed to any task — the listener silently ignores it,
refuting the claim that every other decodable frame is handed to an
independently scheduled concurrent task. -/
theorem C2_counterexample :
    classifyFrame (some (Json.obj [("foo", Json.num 1)])) = ListenAction.ignore := by
  decide

/-- C2 (amended): for every inbound frame read by the listener loop, a
decodable dict frame carrying "jsonrpc" and no "method" key is forwarded
synchronously to `handle_mcp_response`; any other decodable dict frame
whose `message` field is truthy is handed to an independently scheduled
concurrent task; other decodable dict frames are silently ignored (no
task); a frame whose payload fails to decode as JSON is logged and
skipped, and the loop processes every frame of the inbound sequence
(never terminates on a malformed frame). -/
theorem C2_frame_classification (fs : List (Option Json))
    (kvs1 kvs2 kvs3 : List (String × Json))
    (h1 : isReplyShaped (Json.obj kvs1) = true)
    (h2 : isReplyShaped (Json.obj kvs2) = false)
    (h3 : (messageOf kvs2).truthy = true)
    (h4 : isReplyShaped (Json.obj kvs3) = false)
    (h5 : (messageOf kvs3).truthy = false) :
    (listenSteps fs).length = fs.length ∧
    classifyFrame none = ListenAction.malformedSkip ∧
    classifyFrame (some (Json.obj kvs1)) = ListenAction.handleResponse (Json.obj kvs1) ∧
    classifyFrame (some (Json.obj kvs2))
      = ListenAction.spawnTask (messageOf kvs2) (messageIdOf kvs2) ∧
    classifyFrame (some (Json.obj kvs3)) = ListenAction.ignore := by
  refine ⟨List.length_map _ _, rfl, ?_, ?_, ?_⟩
  · rw [classifyFrame_obj, if_pos h1]
  · rw [classifyFrame_obj, if_neg (by rw [h2]; exact Bool.false_ne_true), if_pos h3]
  · rw [classifyFrame_obj, if_neg (by rw [h4]; exact Bool.false_ne_true),
      if_neg (by rw [h5]; exact Bool.false_ne_true)]

/-- Witness for C2 (amended) at concrete frames: a reply frame, a
WorkItem frame with a truthy message, and a frame with an empty message. -/
theorem C2_frame_classification_witness :
    (listenSteps [none, some (Json.obj [("message", Json.str "hi")])]).length = 2 ∧
    classifyFrame none = ListenAction.malformedSkip ∧
    classifyFrame (some (Json.obj [("jsonrpc", Json.str "2.0"), ("id", Json.num 1)]))
      = ListenAction.handleResponse
          (Json.obj [("jsonrpc", Json.str "2.0"), ("id", Json.num 1)]) ∧
    classifyFrame (some (Json.obj [("message", Json.str "hi"), ("messageId", Json.str "7")]))
      = ListenAction.spawnTask
          (messageOf [("message", Json.str "hi"), ("messageId", Json.str "7")])
          (messageIdOf [("message", Json.str "hi"), ("messageId", Json.str "7")]) ∧
    classifyFrame (some (Json.obj [("message", Json.str "")])) = ListenAction.ignore :=
  C2_frame_classification [none, some (Json.obj [("message", Json.str "hi")])]
    [("jsonrpc", Json.str "2.0"), ("id", Json.num 1)]
    [("message", Json.str "hi"), ("messageId", Json.str "7")]
    [("message", Json.str "")]
    (by decide) (by decide) (by decide) (by decide) (by decide)

/-- C10: a decodable frame classified as a WorkItem whose `message` field
is absent or the empty string is silently ignored: the listener spawns no
processing task and sends no reply frame, even when a `messageId` is
supplied (this covers frames carrying both "jsonrpc" and "method" keys,
which fail the reply test and fall into the WorkItem branch). -/
theorem C10_empty_message_ignored (kvs : List (String × Json))
    (h1 : isReplyShaped (Json.obj kvs) = false)
    (h2 : pyGet (Json.obj kvs) "message" = none ∨
          pyGet (Json.obj kvs) "message" = some (Json.str "")) :
    classifyFrame (some (Json.obj kvs)) = ListenAction.ignore := by
  rw [classifyFrame_obj, if_neg (by rw [h1]; exact Bool.false_ne_true)]
  have hmsg : (messageOf kvs).truthy = false := by
    rcases h2 with h2 | h2 <;> simp [messageOf, h2, Json.truthy]
  rw [if_neg (by rw [hmsg]; exact Bool.false_ne_true)]

/-- Witness for C10: a frame carrying both "jsonrpc" and "method" plus a
messageId but no message is ignored outright. -/
theorem C10_empty_message_ignored_witness :
    classifyFrame (some (Json.obj [("jsonrpc", Json.str "2.0"),
        ("method", Json.str "ping"), ("messageId", Json.str "9")]))
      = ListenAction.ignore :=
  C10_empty_message_ignored
    [("jsonrpc", Json.str "2.0"), ("method", Json.str "ping"), ("messageId", Json.str "9")]
    (by decide) (Or.inl (by decide))

/-- Frame sent by the proxy invocation in the C6 counterexample. -/
def c6Frame : Json :=
  (arunRequest initCM "fill_field" (Json.obj [("value", Json.str "x")])).2.2

/-- C6 counterexample: the single request frame sent by a proxy
invocation carries method "tools/call", not "call" as the claim
states. -/
theorem C6_counterexample :
    pyGet c6Frame "method" = some (Json.str "tools/call") ∧
    ¬ pyGet c6Frame "method" = some (Json.str "call") := by
  exact ⟨by decide, by decide⟩

/-- C6 (amended): invoking a proxy with keyword arguments sends exactly
one correlated request whose method is "tools/call", whose params.name is
the proxy's bound name and whose params.arguments is the serialized
invocation arguments, registered under the freshly allocated correlation
id; the invocation's returned value is the Python string form of the
reply's result (`str(response.get("result", \x7b\x7d))`), except that an
error-shaped reply is turned into a descriptive string embedding the
error rather than a raised fault. -/
theorem C6_proxy_invocation (s : CMState) (name : String) (kwargs resp resp2 : Json)
    (he : hasKeyB resp "error" = false)
    (he2 : hasKeyB resp2 "error" = true) :
    (arunRequest s name kwargs).2.2 = Json.obj
      [("jsonrpc", Json.str "2.0"), ("method", Json.str "tools/call"),
       ("id", Json.num ((s.mcp_request_id + 1 : Nat) : Int)),
       ("params", Json.obj [("name", Json.str name), ("arguments", kwargs)])] ∧
    (arunRequest s name kwargs).2.1 = s.mcp_request_id + 1 ∧
    fstateGet (arunRequest s name kwargs).1.futures (s.mcp_request_id + 1)
      = some FState.pending ∧
    arunResult name resp = pyStr ((pyGet resp "result").getD (Json.obj [])) ∧
    arunResult name resp2
      = "Error calling " ++ name ++ ": " ++ pyStr ((pyGet resp2 "error").getD Json.null) := by
  refine ⟨rfl, rfl, ?_, ?_, ?_⟩
  · exact fstateGet_fstateSet_self _ _ _
  · simp only [hasKeyB] at he
    simp only [arunResult, he]
    simp
  · simp only [hasKeyB] at he2
    simp only [arunResult, he2]
    simp

/-- Witness for C6 (amended) at a concrete invocation and two concrete
replies, one plain and one error-shaped. -/
theorem C6_proxy_invocation_witness :
    (arunRequest initCM "fill_field" (Json.obj [("value", Json.str "x")])).2.2 = Json.obj
      [("jsonrpc", Json.str "2.0"), ("method", Json.str "tools/call"),
       ("id", Json.num ((initCM.mcp_request_id + 1 : Nat) : Int)),
       ("params", Json.obj [("name", Json.str "fill_field"),
         ("arguments", Json.obj [("value", Json.str "x")])])] ∧
    (arunRequest initCM "fill_field" (Json.obj [("value", Json.str "x")])).2.1
      = initCM.mcp_request_id + 1 ∧
    fstateGet (arunRequest initCM "fill_field" (Json.obj [("value", Json.str "x")])).1.futures
        (initCM.mcp_request_id + 1) = some FState.pending ∧
    arunResult "fill_field" (Json.obj [("id", Json.num 1), ("result", Json.str "ok")])
      = pyStr ((pyGet (Json.obj [("id", Json.num 1), ("result", Json.str "ok")])
          "result").getD (Json.obj [])) ∧
    arunResult "fill_field" (Json.obj [("id", Json.num 1), ("error", Json.str "bad")])
      = "Error calling " ++ "fill_field" ++ ": "
        ++ pyStr ((pyGet (Json.obj [("id", Json.num 1), ("error", Json.str "bad")])
            "error").getD Json.null) :=
  C6_proxy_invocation initCM "fill_field" (Json.obj [("value", Json.str "x")])
    (Json.obj [("id", Json.num 1), ("result", Json.str "ok")])
    (Json.obj [("id", Json.num 1), ("error", Json.str "bad")])
    (by decide) (by decide)

/-- The discovery request issued by `discover_and_create_tools`:
`manager.send_mcp_request("tools/list")`, with no params argument. -/
def discoveryRequest (s : CMState) : CMState × Nat × Json :=
  send_mcp_request s "tools/list" none

/-- Discovery reply whose result carries descriptors under a
"capabilities" field, as the claim describes. -/
def c7Response : Json :=
  Json.obj [("jsonrpc", Json.str "2.0"), ("id", Json.num 1),
    ("result", Json.obj [("capabilities", Json.arr
      [Json.obj [("name", Json.str "fill"), ("description", Json.str "d"),
                 ("inputSchema", Json.obj [])]])])]

/-- C7 counterexample: the discovery request's method is "tools/list",
not "list"; and a reply carrying a well-formed descriptor under the
result field "capabilities" yields no tools at all — descriptors are
read from the result field "tools". -/
theorem C7_counterexample :
    ¬ pyGet (discoveryRequest initCM).2.2 "method" = some (Json.str "list") ∧
    pyGet (discoveryRequest initCM).2.2 "method" = some (Json.str "tools/list") ∧
    discover_and_create_tools some c7Response = [] := by
  exact ⟨by decide, by decide, by decide⟩

/-- C7 (amended): capability discovery issues exactly one correlated
request with method "tools/list" and no params key, and extracts the
tool descriptors from the reply's result field "tools", each descriptor
carrying name, description and inputSchema. -/
theorem C7_discovery (s : CMState) (conv : Json → Option Json)
    (name desc : String) (schema : Json) :
    pyGet (discoveryRequest s).2.2 "method" = some (Json.str "tools/list") ∧
    hasKeyB (discoveryRequest s).2.2 "params" = false ∧
    (discoveryRequest s).2.1 = s.mcp_request_id + 1 ∧
    discover_and_create_tools conv (mkToolsResponse
      [Json.obj [("name", Json.str name), ("description", Json.str desc),
                 ("inputSchema", schema)]])
      = [⟨name, desc,
          Json.obj [("name", Json.str name), ("description", Json.str desc),
                    ("inputSchema", schema)],
          conv schema⟩] := by
  refine ⟨rfl, rfl, rfl, rfl⟩

/-- C8: an error-shaped discovery reply yields the empty tool set rather
than raising; and a schema-conversion failure on one descriptor does not
prevent building proxies for the others: whenever every descriptor has a
string name and description, each yields exactly one tool (the list of
tools has one entry per descriptor), and a descriptor whose schema fails
to convert still yields its tool, degraded to `args_schema = none`. -/
theorem C8_discovery_resilience (conv : Json → Option Json) (response : Json)
    (he : hasKeyB response "error" = true)
    (infos : List Json) (ts : List ToolModel)
    (hts : infos.mapM (extractTool conv) = some ts)
    (info : Json) (nm ds : String)
    (hnm : pyGet info "name" = some (Json.str nm))
    (hds : pyGet info "description" = some (Json.str ds)) :
    discover_and_create_tools conv response = [] ∧
    discover_and_create_tools conv (mkToolsResponse infos) = ts ∧
    ts.length = infos.length ∧
    extractTool conv info = some ⟨nm, ds, info, extractSchema conv info⟩ := by
  refine ⟨?_, ?_, mapM_extract_length hts, ?_⟩
  · simp only [hasKeyB] at he
    simp only [discover_and_create_tools, he]
    simp
  · have hbase : discover_and_create_tools conv (mkToolsResponse infos)
        = (infos.mapM (extractTool conv)).getD [] := rfl
    rw [hbase, hts]
    rfl
  · simp only [extractTool, hnm, hds]

/-- Descriptor whose schema conversion will fail in the C8 witness. -/
def c8BadInfo : Json :=
  Json.obj [("name", Json.str "bad"), ("description", Json.str "d2"),
            ("inputSchema", Json.str "oops")]

/-- Descriptor whose schema conversion succeeds in the C8 witness. -/
def c8GoodInfo : Json :=
  Json.obj [("name", Json.str "good"), ("description", Json.str "d1"),
            ("inputSchema", Json.obj [])]

/-- Conversion that fails exactly on the bad descriptor's schema. -/
def c8Conv (j : Json) : Option Json :=
  if j == Json.str "oops" then none else some j

/-- Witness for C8: with an error-shaped reply discovery yields no tools;
with one good and one bad descriptor both tools are built, the bad one
degraded to no argument schema. -/
theorem C8_discovery_resilience_witness :
    discover_and_create_tools c8Conv (Json.obj [("error", Json.str "x")]) = [] ∧
    discover_and_create_tools c8Conv (mkToolsResponse [c8GoodInfo, c8BadInfo])
      = [⟨"good", "d1", c8GoodInfo, some (Json.obj [])⟩,
         ⟨"bad", "d2", c8BadInfo, none⟩] ∧
    ([⟨"good", "d1", c8GoodInfo, some (Json.obj [])⟩,
      ⟨"bad", "d2", c8BadInfo, none⟩] : List ToolModel).length
      = [c8GoodInfo, c8BadInfo].length ∧
    extractTool c8Conv c8BadInfo = some ⟨"bad", "d2", c8BadInfo, extractSchema c8Conv c8BadInfo⟩ :=
  C8_discovery_resilience c8Conv (Json.obj [("error", Json.str "x")]) (by decide)
    [c8GoodInfo, c8BadInfo]
    [⟨"good", "d1", c8GoodInfo, some (Json.obj [])⟩, ⟨"bad", "d2", c8BadInfo, none⟩]
    (by decide) c8BadInfo "bad" "d2" (by decide) (by decide)

theorem withMessageId_single (key key2 : String) (v mid : Json)
    (hkey : key ≠ "messageId") (h2k : key2 ≠ key) (h2m : key2 ≠ "messageId") :
    hasKeyB (withMessageId (Json.obj [(key, v)]) mid) key = true ∧
    hasKeyB (withMessageId (Json.obj [(key, v)]) mid) key2 = false ∧
    (mid.truthy = true →
      pyGet (withMessageId (Json.obj [(key, v)]) mid) "messageId" = some mid) ∧
    pyGet (withMessageId (Json.obj [(key, v)]) mid) key = some v := by
  unfold withMessageId
  by_cases ht : mid.truthy = true
  · rw [if_pos ht]
    refine ⟨?_, ?_, fun _ => ?_, ?_⟩ <;>
      simp [hasKeyB, pyContains, pyGet, hkey, h2k, h2m,
        Ne.symm hkey, Ne.symm h2k, Ne.symm h2m]
  · rw [if_neg ht]
    refine ⟨?_, ?_, fun hc => absurd hc ht, ?_⟩ <;>
      simp [hasKeyB, pyContains, pyGet, hkey, h2k, h2m,
        Ne.symm hkey, Ne.symm h2k, Ne.symm h2m]

/-- C9 counterexample: a WorkItem supplying the empty-string messageId is
answered with a reply frame carrying no messageId field at all — a
supplied falsy messageId is not echoed (`if message_id:` fails), refuting
the claim that the reply echoes the messageId whenever one was
supplied. -/
theorem C9_counterexample :
    process_agent_message true
        (AgentOutcome.success (Json.obj [("output", Json.str "ok")])) (Json.str "")
      = [Json.obj [("result", Json.str "ok")]] ∧
    hasKeyB (Json.obj [("result", Json.str "ok")]) "messageId" = false := by
  exact ⟨by decide, by decide⟩

/-- C9 (amended): every WorkItem accepted for processing yields exactly
one reply frame containing either a result or an error field (never
both), echoing the WorkItem's messageId whenever a truthy (non-empty)
one was supplied; in particular a WorkItem processed before the agent is
bound receives the explicit "Agent not ready" error reply rather than
being silently ignored. -/
theorem C9_workitem_reply (ready : Bool) (outcome : AgentOutcome) (mid : Json)
    (f : Json) (hf : f ∈ process_agent_message ready outcome mid) :
    (process_agent_message ready outcome mid).length = 1 ∧
    ((hasKeyB f "result" = true ∧ hasKeyB f "error" = false) ∨
     (hasKeyB f "result" = false ∧ hasKeyB f "error" = true)) ∧
    (mid.truthy = true → pyGet f "messageId" = some mid) ∧
    (ready = false → pyGet f "error" = some (Json.str "Agent not ready")) := by
  cases ready with
  | false =>
      have he : process_agent_message false outcome mid
          = [withMessageId (Json.obj [("error", Json.str "Agent not ready")]) mid] := rfl
      rw [he, List.mem_singleton] at hf
      subst hf
      obtain ⟨p1, p2, p3, p4⟩ := withMessageId_single "error" "result"
        (Json.str "Agent not ready") mid (by decide) (by decide) (by decide)
      exact ⟨by rw [he]; rfl, Or.inr ⟨p2, p1⟩, p3, fun _ => p4⟩
  | true =>
      cases outcome with
      | success result =>
          have he : process_agent_message true (AgentOutcome.success result) mid
              = [withMessageId (Json.obj [("result",
                  (pyGet result "output").getD (Json.str (pyStr result)))]) mid] := rfl
          rw [he, List.mem_singleton] at hf
          subst hf
          obtain ⟨p1, p2, p3, p4⟩ := withMessageId_single "result" "error"
            ((pyGet result "output").getD (Json.str (pyStr result))) mid
            (by decide) (by decide) (by decide)
          exact ⟨by rw [he]; rfl, Or.inl ⟨p1, p2⟩, p3, fun hc => absurd hc (by simp)⟩
      | failure e =>
          have he : process_agent_message true (AgentOutcome.failure e) mid
              = [withMessageId (Json.obj [("error", Json.str e)]) mid] := rfl
          rw [he, List.mem_singleton] at hf
          subst hf
          obtain ⟨p1, p2, p3, p4⟩ := withMessageId_single "error" "result"
            (Json.str e) mid (by decide) (by decide) (by decide)
          exact ⟨by rw [he]; rfl, Or.inr ⟨p2, p1⟩, p3, fun hc => absurd hc (by simp)⟩

/-- Reply frame produced in the C9 witness scenario. -/
def c9Frame : Json :=
  Json.obj [("error", Json.str "Agent not ready"), ("messageId", Json.str "1")]

/-- Witness for C9 (amended): a WorkItem with messageId "1" processed
before the agent is bound gets exactly one reply, the explicit
"Agent not ready" error, echoing its messageId. -/
theorem C9_workitem_reply_witness :
    (process_agent_message false (AgentOutcome.failure "boom") (Json.str "1")).length = 1 ∧
    ((hasKeyB c9Frame "result" = true ∧ hasKeyB c9Frame "error" = false) ∨
     (hasKeyB c9Frame "result" = false ∧ hasKeyB c9Frame "error" = true)) ∧
    (Json.truthy (Json.str "1") = true → pyGet c9Frame "messageId" = some (Json.str "1")) ∧
    (false = false → pyGet c9Frame "error" = some (Json.str "Agent not ready")) :=
  C9_workitem_reply false (AgentOutcome.failure "boom") (Json.str "1") c9Frame (by decide)

end Byomcp
